import Mathlib

/-
Verification of the core of backtrace-rs (src/lib.rs).

The `lock` module and the `Bomb` type are translated directly from the
source.  The modules `backtrace`, `capture` and `demangle` are declared in
lib.rs but their files are not part of src/, so the operations `trace`,
`Backtrace::capture` and `demangle` are modelled from the specification,
as marked in their doc comments.

Machine state: the process-wide mutex `LOCK` is modelled by its optional
owning thread, and the thread-local `LOCK_HELD` cells by a function from
thread ids (Nat) to Bool.  Blocking acquisition of the mutex is modelled
by its completed effect: the acquiring state records the new owner, and
theorems about the acquiring branch take the hypothesis that the mutex is
free (the state at which the blocking call returns).
-/

namespace BacktraceRs

/-- State of the `lock` module: the owner of the process-wide mutex `LOCK`
    (none when the mutex is free) and the thread-local `LOCK_HELD` flag of
    every thread. -/
structure LockState where
  mutexOwner : Option Nat
  lockHeld : Nat → Bool

/-- Update one thread's `LOCK_HELD` cell. -/
def LockState.setHeld (s : LockState) (t : Nat) (b : Bool) : LockState :=
  { s with lockHeld := fun u => if u = t then b else s.lockHeld u }

/-- A `LockGuard` as returned by `lock::lock`, tagged with the thread that
    acquired it. -/
structure LockGuard where
  owner : Nat

/-- Translation of `lock::lock` (src/lib.rs lines 126-137), as run by
    thread `t`: if the thread-local `LOCK_HELD` flag is set, return `None`
    immediately; otherwise set the flag, block acquiring the global mutex,
    and return `Some(LockGuard)`.  The returned state is the state after
    the blocking acquisition completes. -/
def lock (t : Nat) (s : LockState) : Option LockGuard × LockState :=
  if s.lockHeld t then (none, s)
  else (some ⟨t⟩, { (s.setHeld t true) with mutexOwner := some t })

/-- Translation of `impl Drop for LockGuard` (src/lib.rs lines 117-124),
    as run by thread `t`: assert the thread-local `LOCK_HELD` flag (a
    failed assertion is a drop-time panic, modelled as `none`), clear it,
    and release the inner `MutexGuard`, freeing the global mutex. -/
def dropLockGuard (t : Nat) (s : LockState) : Option LockState :=
  if s.lockHeld t then some { (s.setHeld t false) with mutexOwner := none }
  else none

/-- Outcome of running a thread's program: normal completion, a failure
    (panic) propagating out, or a process abort (a panic raised during
    unwinding, e.g. the `LockGuard` drop assertion failing). -/
inductive Outcome
  | ok
  | panicked
  | aborted
deriving DecidableEq

/-- Programs a client thread can run against the `lock` module.  The
    `LOCK_HELD` cell is private to the module, so clients interact with it
    only through `lock` and the guard's drop; `locked body` is the RAII
    pattern used by the library (acquire, return early if unavailable, run
    the body, drop the guard on every exit path including unwinding). -/
inductive Prog
  | skip
  | fail
  | seq (p q : Prog)
  | locked (body : Prog)

/-- Execution of a `Prog` on thread `t`.  In `locked body`, the guard drop
    runs both on normal completion of the body and while a panic unwinds
    out of it; a failing drop assertion while unwinding is a double panic,
    which aborts the process. -/
def exec (t : Nat) : Prog → LockState → Outcome × LockState
  | .skip, s => (.ok, s)
  | .fail, s => (.panicked, s)
  | .seq p q, s =>
      match exec t p s with
      | (.ok, s1) => exec t q s1
      | r => r
  | .locked body, s =>
      match lock t s with
      | (none, s1) => (.ok, s1)
      | (some _, s1) =>
          match exec t body s1 with
          | (.aborted, s2) => (.aborted, s2)
          | (o, s2) =>
              match dropLockGuard t s2 with
              | some s3 => (o, s3)
              | none => (.aborted, s2)

/-- Translation of `struct Bomb` (src/lib.rs lines 91-103). -/
structure Bomb where
  enabled : Bool

/-- Effect of a destructor: either it does nothing or it raises a panic. -/
inductive DropEffect
  | nothing
  | panics
deriving DecidableEq

/-- Translation of `impl Drop for Bomb` (src/lib.rs lines 97-103): if the
    bomb is still enabled when dropped, it panics with "cannot panic
    during the backtrace function"; otherwise it does nothing. -/
def Bomb.drop (b : Bomb) : DropEffect :=
  if b.enabled then .panics else .nothing

/-- Modelled from the spec: the Rust runtime semantics (outside src/) by
    which a panic raised from a destructor while another failure is
    already propagating terminates the process unconditionally. -/
def terminatesProcess (failurePropagating : Bool) (e : DropEffect) : Bool :=
  failurePropagating && (e == DropEffect.panics)

/-- Modelled from the spec: the `Frame` type of module `backtrace`
    (declared in lib.rs but its file is not under src/): instruction
    pointer, stack pointer and symbol address, addresses as Nat. -/
structure Frame where
  ip : Nat
  sp : Nat
  symbolAddress : Nat

/-- Modelled from the spec: the frame walk of `trace` — frames are visited
    from the caller outward, and the walk stops as soon as the visitor
    returns false or the stack is exhausted.  Returns the list of frames
    actually passed to the visitor. -/
def walkVisited (visit : Frame → Bool) : List Frame → List Frame
  | [] => []
  | f :: rest => if visit f then f :: walkVisited visit rest else [f]

/-- Modelled from the spec: `trace` of module `backtrace` (declared in
    lib.rs but its file is not under src/), run by thread `t` on a stack
    of frames `stack`: acquire the lock via `lock::lock`; if unavailable
    return immediately with zero visits; otherwise walk the frames and
    drop the guard.  Returns the outcome, the visited frames and the
    final lock state. -/
def trace (visit : Frame → Bool) (stack : List Frame) (t : Nat) (s : LockState) :
    Outcome × List Frame × LockState :=
  match lock t s with
  | (none, s1) => (.ok, [], s1)
  | (some _, s1) =>
      let visited := walkVisited visit stack
      match dropLockGuard t s1 with
      | some s2 => (.ok, visited, s2)
      | none => (.aborted, visited, s1)

/-- Owned copy of one resolved symbol (module `capture`, modelled from the
    spec): optional name bytes, optional filename bytes, optional line. -/
structure BacktraceSymbol where
  name : Option (List Nat)
  filename : Option (List Nat)
  lineno : Option Nat

/-- Owned copy of one frame plus its resolved symbols (module `capture`,
    modelled from the spec). -/
structure BacktraceFrame where
  ip : Nat
  symbolAddress : Nat
  symbols : List BacktraceSymbol

/-- An owned backtrace snapshot (module `capture`, modelled from the
    spec): an ordered sequence of frames, innermost first. -/
structure Backtrace where
  frames : List BacktraceFrame

/-- Modelled from the spec: `Backtrace::capture` of module `capture`
    (declared in lib.rs but its file is not under src/), run by thread `t`:
    one lock acquisition spans tracing and resolving; if the lock is
    unavailable it returns an empty `Backtrace`; otherwise every frame is
    copied together with the symbols the resolver yields for its symbol
    address, and the guard is dropped.  `resolver` abstracts the symbol
    source capability interface. -/
def capture (resolver : Nat → List BacktraceSymbol) (stack : List Frame)
    (t : Nat) (s : LockState) : Outcome × Backtrace × LockState :=
  match lock t s with
  | (none, s1) => (.ok, ⟨[]⟩, s1)
  | (some _, s1) =>
      let frames := stack.map (fun f =>
        BacktraceFrame.mk f.ip f.symbolAddress (resolver f.symbolAddress))
      match dropLockGuard t s1 with
      | some s2 => (.ok, ⟨frames⟩, s2)
      | none => (.aborted, ⟨frames⟩, s1)

/-- Modelled from the spec: one name-mangling scheme the demangler knows —
    a structural grammar that either accepts the input bytes and produces
    a display form, or rejects them.  The scheme definitions themselves
    are external collaborators of the core. -/
structure Scheme where
  run : List Nat → Option (List Nat)

/-- Modelled from the spec: try the schemes in priority order; the first
    one whose grammar accepts the input wins. -/
def trySchemes : List Scheme → List Nat → Option (List Nat)
  | [], _ => none
  | sch :: rest, raw =>
      match sch.run raw with
      | some out => some out
      | none => trySchemes rest raw

/-- Modelled from the spec: `demangle` of module `demangle` (declared in
    lib.rs but its file is not under src/): a pure function returning the
    first accepting scheme's display form, or the raw bytes verbatim when
    no scheme matches.  It is a total function: it never fails and never
    loops. -/
def demangle (schemes : List Scheme) (raw : List Nat) : List Nat :=
  (trySchemes schemes raw).getD raw

/-- An initial lock state: the mutex is free and no thread's `LOCK_HELD`
    flag is set. -/
def sFree : LockState := ⟨none, fun _ => false⟩

/-- A lock state in which thread 0 holds the mutex and has its
    `LOCK_HELD` flag set (mid-backtrace on thread 0). -/
def sHeld : LockState := ⟨some 0, fun _ => true⟩

/-- Helper: `lock` on a thread whose `LOCK_HELD` flag is set returns
    `None` and leaves the state untouched. -/
lemma lock_of_held {t : Nat} {s : LockState} (h : s.lockHeld t = true) :
    lock t s = (none, s) := by
  simp [lock, h]

/-- Helper: `lock` on a thread whose `LOCK_HELD` flag is clear acquires:
    it returns a guard, sets the flag and takes the mutex. -/
lemma lock_of_free {t : Nat} {s : LockState} (h : s.lockHeld t = false) :
    lock t s = (some ⟨t⟩, { (s.setHeld t true) with mutexOwner := some t }) := by
  simp [lock, h]

/-- Helper: the acquired state has the acquiring thread's flag set. -/
lemma acquired_lockHeld (t : Nat) (s : LockState) :
    ({ (s.setHeld t true) with mutexOwner := some t } : LockState).lockHeld t = true := by
  simp [LockState.setHeld]

/-- Helper: dropping the guard in a state where the flag is set succeeds
    and clears both the flag and the mutex. -/
lemma dropLockGuard_of_held {t : Nat} {s : LockState} (h : s.lockHeld t = true) :
    dropLockGuard t s = some { (s.setHeld t false) with mutexOwner := none } := by
  simp [dropLockGuard, h]

/-- Helper: `trace` on a thread whose flag is clear acquires, walks the
    whole visit sequence, and ends in the cleared state. -/
lemma trace_of_free {t : Nat} {s : LockState} (h : s.lockHeld t = false)
    (visit : Frame → Bool) (stack : List Frame) :
    trace visit stack t s =
      (Outcome.ok, walkVisited visit stack,
       { (({ (s.setHeld t true) with mutexOwner := some t } : LockState).setHeld t false) with
         mutexOwner := none }) := by
  simp [trace, lock_of_free h, dropLockGuard_of_held (acquired_lockHeld t s)]

/-- Helper: `capture` on a thread whose flag is clear acquires, copies
    every frame with its resolved symbols, and ends in the cleared
    state. -/
lemma capture_of_free {t : Nat} {s : LockState} (h : s.lockHeld t = false)
    (resolver : Nat → List BacktraceSymbol) (stack : List Frame) :
    capture resolver stack t s =
      (Outcome.ok,
       ⟨stack.map (fun f =>
          BacktraceFrame.mk f.ip f.symbolAddress (resolver f.symbolAddress))⟩,
       { (({ (s.setHeld t true) with mutexOwner := some t } : LockState).setHeld t false) with
         mutexOwner := none }) := by
  simp [capture, lock_of_free h, dropLockGuard_of_held (acquired_lockHeld t s)]

/-- Helper: the state a completed lock/release cycle leaves behind has the
    thread's flag clear. -/
lemma cleared_lockHeld (t : Nat) (s : LockState) :
    ({ (({ (s.setHeld t true) with mutexOwner := some t } : LockState).setHeld t false) with
       mutexOwner := none } : LockState).lockHeld t = false := by
  simp [LockState.setHeld]

/-- Helper: a program executed while the thread's `LOCK_HELD` flag is set
    leaves the lock state completely unchanged (every nested `locked`
    region degrades to the reentrant early return) and never aborts. -/
lemma exec_held (t : Nat) (p : Prog) :
    ∀ s : LockState, s.lockHeld t = true →
      (exec t p s).2 = s ∧ (exec t p s).1 ≠ Outcome.aborted := by
  induction p with
  | skip =>
      intro s h
      exact ⟨rfl, by simp [exec]⟩
  | fail =>
      intro s h
      exact ⟨rfl, by simp [exec]⟩
  | seq p q ihp ihq =>
      intro s h
      cases hpe : exec t p s with
      | mk o s1 =>
        obtain ⟨h2, h1⟩ := ihp s h
        rw [hpe] at h2 h1
        simp only at h2 h1
        rw [h2] at hpe
        cases o with
        | ok =>
            have heq : exec t (Prog.seq p q) s = exec t q s := by
              simp [exec, hpe]
            rw [heq]
            exact ihq s h
        | panicked =>
            have heq : exec t (Prog.seq p q) s = (Outcome.panicked, s) := by
              simp [exec, hpe]
            rw [heq]
            exact ⟨rfl, by simp⟩
        | aborted => exact absurd rfl h1
  | locked body ih =>
      intro s h
      have : exec t (Prog.locked body) s = (Outcome.ok, s) := by
        simp [exec, lock_of_held h]
      rw [this]
      exact ⟨rfl, by simp⟩

/-- Helper: the main invariant of the locking discipline — a program run
    by a thread that starts with its flag clear and the mutex free ends
    with the flag clear and the mutex free, and never reaches the abort
    outcome (the guard drop assertion never fails). -/
lemma exec_free (t : Nat) (p : Prog) :
    ∀ s : LockState, s.lockHeld t = false → s.mutexOwner = none →
      (exec t p s).2.lockHeld t = false ∧ (exec t p s).2.mutexOwner = none ∧
        (exec t p s).1 ≠ Outcome.aborted := by
  induction p with
  | skip =>
      intro s h1 h2
      exact ⟨h1, h2, by simp [exec]⟩
  | fail =>
      intro s h1 h2
      exact ⟨h1, h2, by simp [exec]⟩
  | seq p q ihp ihq =>
      intro s h1 h2
      cases hpe : exec t p s with
      | mk o s1 =>
        obtain ⟨g1, g2, g3⟩ := ihp s h1 h2
        rw [hpe] at g1 g2 g3
        simp only at g1 g2 g3
        cases o with
        | ok =>
            have : exec t (Prog.seq p q) s = exec t q s1 := by
              simp [exec, hpe]
            rw [this]
            exact ihq s1 g1 g2
        | panicked =>
            have : exec t (Prog.seq p q) s = (Outcome.panicked, s1) := by
              simp [exec, hpe]
            rw [this]
            exact ⟨g1, g2, by simp⟩
        | aborted => exact absurd rfl g3
  | locked body ih =>
      intro s h1 h2
      have hacq : lock t s = (some ⟨t⟩, { (s.setHeld t true) with mutexOwner := some t }) :=
        lock_of_free h1
      have hheld := acquired_lockHeld t s
      obtain ⟨hb2, hb1⟩ := exec_held t body _ hheld
      cases hbe : exec t body { (s.setHeld t true) with mutexOwner := some t } with
      | mk o s2 =>
        rw [hbe] at hb2 hb1
        simp only at hb2 hb1
        subst hb2
        have hdrop := dropLockGuard_of_held hheld
        cases o with
        | ok =>
            have : exec t (Prog.locked body) s =
                (Outcome.ok,
                  { (({ (s.setHeld t true) with mutexOwner := some t } : LockState).setHeld t false) with
                    mutexOwner := none }) := by
              simp [exec, hacq, hbe, hdrop]
            rw [this]
            refine ⟨by simp [LockState.setHeld], rfl, by simp⟩
        | panicked =>
            have : exec t (Prog.locked body) s =
                (Outcome.panicked,
                  { (({ (s.setHeld t true) with mutexOwner := some t } : LockState).setHeld t false) with
                    mutexOwner := none }) := by
              simp [exec, hacq, hbe, hdrop]
            rw [this]
            refine ⟨by simp [LockState.setHeld], rfl, by simp⟩
        | aborted => exact absurd rfl hb1

/-- C1: `lock::lock` returns `None` immediately, leaving the state
    untouched, when the calling thread already holds the lock; otherwise,
    once the global mutex is free, it returns `Some` guard with the
    calling thread's `LOCK_HELD` flag set and the mutex owned by it. -/
theorem lock_reentrancy_spec (t : Nat) (s : LockState) :
    (s.lockHeld t = true → lock t s = (none, s)) ∧
    (s.lockHeld t = false → s.mutexOwner = none →
      ∃ g s1, lock t s = (some g, s1) ∧ s1.lockHeld t = true ∧
        s1.mutexOwner = some t) := by
  constructor
  · intro h
    exact lock_of_held h
  · intro h _
    exact ⟨⟨t⟩, _, lock_of_free h, acquired_lockHeld t s, rfl⟩

/-- Witness for C1 at thread 0 in the free initial state. -/
theorem lock_reentrancy_spec_witness :
    sFree.lockHeld 0 = false ∧ sFree.mutexOwner = none ∧
      ∃ g s1, lock 0 sFree = (some g, s1) ∧ s1.lockHeld 0 = true ∧
        s1.mutexOwner = some 0 :=
  ⟨rfl, rfl, (lock_reentrancy_spec 0 sFree).2 rfl rfl⟩

/-- C2: on every exit path of a locked operation — normal completion and
    failure paths alike — the lock is released: any program built from
    RAII-locked regions, run from a state where the thread neither holds
    the flag nor the mutex, ends with the flag clear and the mutex free,
    so a thread is never left holding the lock forever. -/
theorem lock_failure_safety (t : Nat) (p : Prog) (s : LockState)
    (h1 : s.lockHeld t = false) (h2 : s.mutexOwner = none) :
    (exec t p s).2.lockHeld t = false ∧ (exec t p s).2.mutexOwner = none := by
  obtain ⟨a, b, -⟩ := exec_free t p s h1 h2
  exact ⟨a, b⟩

/-- Witness for C2: a locked region whose body fails still releases. -/
theorem lock_failure_safety_witness :
    sFree.lockHeld 0 = false ∧ sFree.mutexOwner = none ∧
      (exec 0 (Prog.locked Prog.fail) sFree).2.lockHeld 0 = false ∧
      (exec 0 (Prog.locked Prog.fail) sFree).2.mutexOwner = none :=
  ⟨rfl, rfl, lock_failure_safety 0 (Prog.locked Prog.fail) sFree rfl rfl⟩

/-- C3: dropping the `Bomb` while still armed raises the drop panic — and,
    a failure already propagating, that terminates the process
    unconditionally; dropping it disarmed has no effect. -/
theorem bomb_drop_spec (b : Bomb) :
    (b.enabled = true →
      Bomb.drop b = DropEffect.panics ∧
        terminatesProcess true (Bomb.drop b) = true) ∧
    (b.enabled = false → Bomb.drop b = DropEffect.nothing) := by
  constructor
  · intro h
    have hd : Bomb.drop b = DropEffect.panics := by simp [Bomb.drop, h]
    refine ⟨hd, ?_⟩
    rw [hd]
    decide
  · intro h
    simp [Bomb.drop, h]

/-- Witness for C3 on the armed and the disarmed bomb. -/
theorem bomb_drop_spec_witness :
    (Bomb.drop ⟨true⟩ = DropEffect.panics ∧
      terminatesProcess true (Bomb.drop ⟨true⟩) = true) ∧
      Bomb.drop ⟨false⟩ = DropEffect.nothing :=
  ⟨(bomb_drop_spec ⟨true⟩).1 rfl, (bomb_drop_spec ⟨false⟩).2 rfl⟩

/-- C4: releasing the guard clears both the global mutex and the
    thread-local flag, so a subsequent acquire succeeds; and two
    sequential, non-overlapping `capture()` calls on the same thread both
    succeed, each copying the whole stack. -/
theorem guard_release_clears_state (t : Nat) (s : LockState)
    (h : s.lockHeld t = false) :
    (∀ g s1, lock t s = (some g, s1) →
      ∃ s2, dropLockGuard t s1 = some s2 ∧ s2.mutexOwner = none ∧
        s2.lockHeld t = false ∧ (lock t s2).1.isSome = true) ∧
    (∀ resolver stack,
      ((capture resolver stack t s).2.2).lockHeld t = false ∧
      ((capture resolver stack t s).2.1).frames.length = stack.length ∧
      ((capture resolver stack t
          ((capture resolver stack t s).2.2)).2.1).frames.length = stack.length) := by
  constructor
  · intro g s1 hl
    rw [lock_of_free h] at hl
    have hs1 : s1 = { (s.setHeld t true) with mutexOwner := some t } :=
      (congrArg Prod.snd hl).symm
    subst hs1
    refine ⟨_, dropLockGuard_of_held (acquired_lockHeld t s), rfl,
      cleared_lockHeld t s, ?_⟩
    rw [lock_of_free (cleared_lockHeld t s)]
    rfl
  · intro resolver stack
    rw [capture_of_free h]
    refine ⟨cleared_lockHeld t s, by simp, ?_⟩
    rw [capture_of_free (cleared_lockHeld t s)]
    simp

/-- Witness for C4: a full acquire/release cycle and two sequential
    captures of a one-frame stack on thread 0. -/
theorem guard_release_clears_state_witness :
    sFree.lockHeld 0 = false ∧
      ((capture (fun _ => []) [⟨1, 2, 3⟩] 0 sFree).2.1).frames.length = 1 ∧
      ((capture (fun _ => []) [⟨1, 2, 3⟩] 0
          ((capture (fun _ => []) [⟨1, 2, 3⟩] 0 sFree).2.2)).2.1).frames.length = 1 := by
  have h := (guard_release_clears_state 0 sFree rfl).2 (fun _ => []) [⟨1, 2, 3⟩]
  exact ⟨rfl, h.2.1, h.2.2⟩

/-- C5: a `trace` call made while the calling thread already holds the
    lock visits zero frames and returns immediately and normally, with the
    state untouched. -/
theorem trace_reentrant_zero_visits (visit : Frame → Bool) (stack : List Frame)
    (t : Nat) (s : LockState) (h : s.lockHeld t = true) :
    trace visit stack t s = (Outcome.ok, [], s) := by
  simp [trace, lock_of_held h]

/-- Witness for C5: a reentrant trace on thread 0 over a nonempty stack. -/
theorem trace_reentrant_zero_visits_witness :
    sHeld.lockHeld 0 = true ∧
      trace (fun _ => true) [⟨1, 2, 3⟩] 0 sHeld = (Outcome.ok, [], sHeld) :=
  ⟨rfl, trace_reentrant_zero_visits (fun _ => true) [⟨1, 2, 3⟩] 0 sHeld rfl⟩

/-- C6: `Backtrace::capture` never fails: for every thread, stack,
    resolver and lock state its outcome is `ok` (every path reaches Done),
    and when the lock is unavailable because the thread already holds it,
    the result is an empty `Backtrace`. -/
theorem capture_never_fails (resolver : Nat → List BacktraceSymbol)
    (stack : List Frame) (t : Nat) (s : LockState) :
    (capture resolver stack t s).1 = Outcome.ok ∧
    (s.lockHeld t = true →
      (capture resolver stack t s).2.1 = Backtrace.mk []) := by
  cases hb : s.lockHeld t with
  | true =>
      have hc : capture resolver stack t s = (Outcome.ok, ⟨[]⟩, s) := by
        simp [capture, lock_of_held hb]
      rw [hc]
      exact ⟨rfl, fun _ => rfl⟩
  | false =>
      rw [capture_of_free hb]
      exact ⟨rfl, fun hc => absurd hc (by simp [hb])⟩

/-- Witness for C6: a reentrant capture on thread 0 succeeds and is
    empty. -/
theorem capture_never_fails_witness :
    (capture (fun _ => []) [⟨1, 2, 3⟩] 0 sHeld).1 = Outcome.ok ∧
      (capture (fun _ => []) [⟨1, 2, 3⟩] 0 sHeld).2.1 = Backtrace.mk [] :=
  ⟨(capture_never_fails (fun _ => []) [⟨1, 2, 3⟩] 0 sHeld).1,
   (capture_never_fails (fun _ => []) [⟨1, 2, 3⟩] 0 sHeld).2 rfl⟩

/-- C7: when the lock is available and the stack is walkable (nonempty), a
    `trace` with a visitor that always returns false invokes the visitor
    exactly once: the walk stops at the first frame. -/
theorem trace_false_visitor_one_frame (stack : List Frame) (t : Nat)
    (s : LockState) (h1 : s.lockHeld t = false) (h2 : stack ≠ []) :
    (trace (fun _ => false) stack t s).2.1.length = 1 := by
  rw [trace_of_free h1]
  cases stack with
  | nil => exact absurd rfl h2
  | cons f rest => simp [walkVisited]

/-- Witness for C7: an always-false visitor over a two-frame stack visits
    one frame. -/
theorem trace_false_visitor_one_frame_witness :
    sFree.lockHeld 0 = false ∧ ([⟨1, 2, 3⟩, ⟨4, 5, 6⟩] : List Frame) ≠ [] ∧
      (trace (fun _ => false) [⟨1, 2, 3⟩, ⟨4, 5, 6⟩] 0 sFree).2.1.length = 1 :=
  ⟨rfl, by simp,
   trace_false_visitor_one_frame [⟨1, 2, 3⟩, ⟨4, 5, 6⟩] 0 sFree rfl (by simp)⟩

/-- C8: `demangle` is a pure total function; on input matched by no
    scheme it returns the raw bytes verbatim, and it is idempotent there:
    demangling the demangled bytes yields the same display form. -/
theorem demangle_passthrough_idempotent (schemes : List Scheme) (x : List Nat)
    (h : trySchemes schemes x = none) :
    demangle schemes x = x ∧
      demangle schemes (demangle schemes x) = demangle schemes x := by
  have h1 : demangle schemes x = x := by simp [demangle, h]
  exact ⟨h1, by rw [h1]; exact h1⟩

/-- Witness for C8: a demangler with one scheme that rejects the input
    passes the bytes through unchanged and is stable. -/
theorem demangle_passthrough_idempotent_witness :
    trySchemes [⟨fun raw => if raw = [1] then some [2] else none⟩] [0] = none ∧
      demangle [⟨fun raw => if raw = [1] then some [2] else none⟩] [0] = [0] ∧
      demangle [⟨fun raw => if raw = [1] then some [2] else none⟩]
          (demangle [⟨fun raw => if raw = [1] then some [2] else none⟩] [0]) =
        demangle [⟨fun raw => if raw = [1] then some [2] else none⟩] [0] := by
  have h : trySchemes [⟨fun raw => if raw = [1] then some [2] else none⟩] [0] = none := by
    simp [trySchemes]
  have hp := demangle_passthrough_idempotent
    [⟨fun raw => if raw = [1] then some [2] else none⟩] [0] h
  exact ⟨h, hp.1, hp.2⟩

/-- C9: the assertion in `LockGuard`'s drop never fails: no program built
    from RAII-locked regions reaches the abort outcome, and whenever a
    guard obtained from `lock` is dropped on the acquiring thread — after
    any intervening program — the thread's flag is still set, so the drop
    succeeds. -/
theorem drop_assert_never_fails (t : Nat) (p : Prog) (s : LockState)
    (h1 : s.lockHeld t = false) (h2 : s.mutexOwner = none) :
    (exec t p s).1 ≠ Outcome.aborted ∧
    (∀ g s1 q, lock t s = (some g, s1) →
      (dropLockGuard t (exec t q s1).2).isSome = true) := by
  refine ⟨(exec_free t p s h1 h2).2.2, ?_⟩
  intro g s1 q hl
  rw [lock_of_free h1] at hl
  have hs1 : s1 = { (s.setHeld t true) with mutexOwner := some t } :=
    (congrArg Prod.snd hl).symm
  subst hs1
  obtain ⟨hq2, -⟩ := exec_held t q _ (acquired_lockHeld t s)
  rw [hq2, dropLockGuard_of_held (acquired_lockHeld t s)]
  rfl

/-- Witness for C9: a locked region whose body fails never aborts. -/
theorem drop_assert_never_fails_witness :
    sFree.lockHeld 0 = false ∧ sFree.mutexOwner = none ∧
      (exec 0 (Prog.locked Prog.fail) sFree).1 ≠ Outcome.aborted :=
  ⟨rfl, rfl, (drop_assert_never_fails 0 (Prog.locked Prog.fail) sFree rfl rfl).1⟩

/-- C10: at most one guard per thread: after `lock` returns a guard on a
    thread, every further `lock` call on that thread returns `None` —
    immediately and after any intervening program — until the guard is
    dropped, after which `lock` succeeds again. -/
theorem at_most_one_guard_per_thread (t : Nat) (s : LockState)
    (g : LockGuard) (s1 : LockState) (h : lock t s = (some g, s1)) :
    (lock t s1).1 = none ∧
    (∀ p : Prog, (lock t (exec t p s1).2).1 = none) ∧
    (∀ s2, dropLockGuard t s1 = some s2 → (lock t s2).1.isSome = true) := by
  have hfree : s.lockHeld t = false := by
    cases hb : s.lockHeld t with
    | false => rfl
    | true =>
        rw [lock_of_held hb] at h
        exact absurd (congrArg Prod.fst h) (by simp)
  rw [lock_of_free hfree] at h
  have hs1 : s1 = { (s.setHeld t true) with mutexOwner := some t } :=
    (congrArg Prod.snd h).symm
  subst hs1
  refine ⟨?_, ?_, ?_⟩
  · rw [lock_of_held (acquired_lockHeld t s)]
  · intro p
    obtain ⟨hp2, -⟩ := exec_held t p _ (acquired_lockHeld t s)
    rw [hp2, lock_of_held (acquired_lockHeld t s)]
  · intro s2 hd
    rw [dropLockGuard_of_held (acquired_lockHeld t s)] at hd
    have hs2' : s2 =
        { (({ (s.setHeld t true) with mutexOwner := some t } : LockState).setHeld t false) with
          mutexOwner := none } := (Option.some.inj hd).symm
    subst hs2'
    rw [lock_of_free (cleared_lockHeld t s)]
    rfl

/-- Witness for C10: on thread 0 from the free state, the second `lock`
    returns `None` while the guard lives. -/
theorem at_most_one_guard_per_thread_witness :
    lock 0 sFree = ((lock 0 sFree).1, (lock 0 sFree).2) ∧
      (lock 0 (lock 0 sFree).2).1 = none := by
  have h : lock 0 sFree = (some ⟨0⟩, (lock 0 sFree).2) := by
    rw [lock_of_free (show sFree.lockHeld 0 = false from rfl)]
  exact ⟨rfl, (at_most_one_guard_per_thread 0 sFree ⟨0⟩ (lock 0 sFree).2 h).1⟩

end BacktraceRs
